import Mathlib

/-!
Shallow embedding of `src/toyolo.py` (SoccerNet → YOLO annotation converter).

The script's pure core is embedded directly:
* `parse_gameinfo` — parses the `[Sequence]` section of `gameinfo.ini` into a
  tracklet registry and a category map (Python `configparser` + classification loop);
* `rectangle_to_polygon_normalized` — the geometry transform;
* the per-frame label-writing loop of `process_data`, modelled by `getGroup`
  (pandas `groupby(...).get_group(frame_id)`), `writeRow` / `writeRows`
  (the row loop) and `process_frame` (the content of one frame's label file).

Python exceptions are modelled by `PyError` inside `Except`; machine floats are
modelled by `Rat` (the script's values all arise from exact integer division),
and Python's `str(float)` by `pyFloatStr`, a decimal renderer that agrees with
CPython's shortest-repr on terminating decimals.
-/

/-- The exceptions the script can raise, plus the spec's demanded distinct
`InvalidDimension` error (which the source never raises — kept so the claim
that it is raised can be stated and compared with the source behaviour). -/
inductive PyError where
  | keyError (key : String) : PyError
  | valueError : PyError
  | zeroDivisionError : PyError
  | invalidDimension : PyError
deriving DecidableEq, Repr

/-- Does `needle` occur at the head of `haystack`? -/
def charsStartWith : List Char → List Char → Bool
  | [], _ => true
  | _ :: _, [] => false
  | a :: as, b :: bs => a == b && charsStartWith as bs

/-- Does `needle` occur contiguously anywhere in `haystack`? -/
def charsContain (needle : List Char) : List Char → Bool
  | [] => needle.isEmpty
  | b :: bs => charsStartWith needle (b :: bs) || charsContain needle bs

/-- Python's `needle in haystack` substring test (case-sensitive containment). -/
def substrIn (needle haystack : String) : Bool :=
  charsContain needle.toList haystack.toList

/-- The role-classification branch of the tracklet loop in `parse_gameinfo`:
`"goalkeeper" in value → 1`, elif `"player" in value → 2`,
elif `"referee" in value → 3`, else `0`. -/
def classifyRole (value : String) : Nat :=
  if substrIn "goalkeeper" value then 1
  else if substrIn "player" value then 2
  else if substrIn "referee" value then 3
  else 0

/-- An INI file as read by `configparser`: section name ↦ ordered key/value
pairs (option keys are already in their stored, lower-cased form; the script
only ever uses lookups where `optionxform` cancels out). -/
structure Ini where
  sections : List (String × List (String × String))

/-- `config[name]` — `KeyError` when the section is absent is handled by the
callers below. -/
def Ini.getSection? (c : Ini) (name : String) : Option (List (String × String)) :=
  (c.sections.find? (fun p => p.1 == name)).map Prod.snd

/-- Lookup of an option inside a section, `section[key]`. -/
def sectGet? (sec : List (String × String)) (key : String) : Option String :=
  (sec.find? (fun p => p.1 == key)).map Prod.snd

/-- Decimal digit value of a character, `none` on non-digits. -/
def digitVal? (c : Char) : Option Nat :=
  if c == '0' then some 0 else if c == '1' then some 1
  else if c == '2' then some 2 else if c == '3' then some 3
  else if c == '4' then some 4 else if c == '5' then some 5
  else if c == '6' then some 6 else if c == '7' then some 7
  else if c == '8' then some 8 else if c == '9' then some 9 else none

/-- Accumulate an all-digits character list into a natural number. -/
def natOfChars : List Char → Nat → Option Nat
  | [], acc => some acc
  | c :: cs, acc =>
      match digitVal? c with
      | some d => natOfChars cs (acc * 10 + d)
      | none => none

/-- Python `int(s)` on the strings the script feeds it (optionally signed
decimal literals; forms the script never sees, such as surrounding
whitespace or underscores, are not modelled); `none` models the
`ValueError`. -/
def pyInt? (s : String) : Option Int :=
  match s.toList with
  | [] => none
  | '-' :: cs =>
      if cs.isEmpty then none else (natOfChars cs 0).map (fun n => -(n : Int))
  | '+' :: cs =>
      if cs.isEmpty then none else (natOfChars cs 0).map Int.ofNat
  | cs => (natOfChars cs 0).map Int.ofNat

/-- The tracklet loop of `parse_gameinfo`: for each `i` in the given id list,
read `trackletID_i` (raising `KeyError` when absent, first missing key first)
and record both the raw role string and its category code, in order. -/
def buildTracklets (sec : List (String × String)) :
    List Int → Except PyError (List (Int × String) × List (Int × Nat))
  | [] => .ok ([], [])
  | i :: rest =>
      match sectGet? sec (s!"trackletID_{i}") with
      | none => .error (.keyError (s!"trackletID_{i}"))
      | some value => do
          let (ts, ms) ← buildTracklets sec rest
          .ok ((i, value) :: ts, (i, classifyRole value) :: ms)

/-- The ids `1, 2, ..., n` iterated by `range(1, num_tracklets + 1)`
(empty when `n ≤ 0`). -/
def trackletIds (n : Int) : List Int :=
  (List.range' 1 n.toNat).map Int.ofNat

/-- `parse_gameinfo`: read `num_tracklets` from `[Sequence]` (KeyError if the
section or key is missing, ValueError if non-numeric), then run the tracklet
loop over `1..num_tracklets`, returning the registry and the category map. -/
def parse_gameinfo (c : Ini) :
    Except PyError (List (Int × String) × List (Int × Nat)) := do
  let sec ← match c.getSection? "Sequence" with
    | none => .error (.keyError "Sequence")
    | some s => .ok s
  let ntStr ← match sectGet? sec "num_tracklets" with
    | none => .error (.keyError "num_tracklets")
    | some v => .ok v
  let nt ← match pyInt? ntStr with
    | none => .error PyError.valueError
    | some n => .ok n
  buildTracklets sec (trackletIds nt)

/-- Ball-id resolution in `process_data`:
`[key for key, value in tracklets.items() if value == "ball;1"][0]`, with the
`IndexError` handler turning an empty list into `None`.  Dict iteration order
is insertion order, i.e. ascending tracklet id. -/
def resolveBallId (tracklets : List (Int × String)) : Option Int :=
  (tracklets.find? (fun p => p.2 == "ball;1")).map Prod.fst

/-- Python's true division `a / b` on integers, giving the exact rational
value (the divisions the script performs and prints are exact); dividing by
zero raises `ZeroDivisionError`.  Written via `mkRat` with explicit sign
handling so that it evaluates by kernel reduction; `pyDiv_eq_div` below shows
it agrees with rational division. -/
def pyDiv (a b : Int) : Except PyError Rat :=
  if b = 0 then .error PyError.zeroDivisionError
  else if 0 < b then .ok (mkRat a b.natAbs)
  else .ok (mkRat (-a) b.natAbs)

/-- `rectangle_to_polygon_normalized`: corners
`(x0,y0), (x0+width,y0), (x0+width,y0+height), (x0,y0+height)`, every
x divided by `img_width` and every y by `img_height` (divisions performed in
source order, so a zero `img_width` raises first). -/
def rectangle_to_polygon_normalized
    (x0 y0 width height img_width img_height : Int) : Except PyError (List Rat) := do
  let x1 : Int := x0 + width
  let y1 : Int := y0
  let x2 : Int := x1
  let y2 : Int := y1 + height
  let x3 : Int := x0
  let y3 : Int := y0 + height
  let x0n ← pyDiv x0 img_width
  let y0n ← pyDiv y0 img_height
  let x1n ← pyDiv x1 img_width
  let y1n ← pyDiv y1 img_height
  let x2n ← pyDiv x2 img_width
  let y2n ← pyDiv y2 img_height
  let x3n ← pyDiv x3 img_width
  let y3n ← pyDiv y3 img_height
  .ok [x0n, y0n, x1n, y1n, x2n, y2n, x3n, y3n]

/-- Smallest exponent `k` (starting from the accumulator, bounded by the
fuel) with `den ∣ 10 ^ k`: the number of decimal digits needed to write a
reduced fraction exactly, capped at 17 like CPython's shortest float repr. -/
def decDigitsAux (den : Nat) : Nat → Nat → Nat
  | 0, k => k
  | fuel + 1, k => if 10 ^ k % den = 0 then k else decDigitsAux den fuel (k + 1)

/-- Decimal rendering of a nonnegative terminating rational, matching
CPython's `str(float)` on such values (`0 ↦ "0.0"`, `1/10 ↦ "0.1"`). -/
def pyFloatStrNonneg (q : Rat) : String :=
  let k := decDigitsAux q.den 17 0
  if k = 0 then toString q.num ++ ".0"
  else
    let m := q.num.toNat * 10 ^ k / q.den
    let ip := m / 10 ^ k
    let fp := m % 10 ^ k
    let fs := toString fp
    let fs := String.mk (List.replicate (k - fs.length) '0') ++ fs
    toString ip ++ "." ++ fs

/-- Python `str` on the float values the script prints. -/
def pyFloatStr (q : Rat) : String :=
  if q < 0 then "-" ++ pyFloatStrNonneg (-q) else pyFloatStrNonneg q

/-- One ground-truth annotation row (`frame_id, track_id, x0, y0, width,
height, gt` — the 7 columns of `gt.txt`). -/
structure Row where
  frame_id : Int
  track_id : Int
  x0 : Int
  y0 : Int
  width : Int
  height : Int
  gt : Int
deriving DecidableEq, Repr

/-- `df.groupby("frame_id").get_group(frame_id)`: the rows of the frame in
original order; pandas raises `KeyError` when the frame is not a group key,
i.e. when no row has this `frame_id`. -/
def getGroup (table : List Row) (frame_id : Int) : Except PyError (List Row) :=
  let g := table.filter (fun r => r.frame_id == frame_id)
  if g.isEmpty then .error (.keyError (toString frame_id)) else .ok g

/-- `id_map[track_id]` — dictionary lookup, `KeyError` when absent. -/
def mapLookup (id_map : List (Int × Nat)) (track_id : Int) : Except PyError Nat :=
  match id_map.find? (fun p => p.1 == track_id) with
  | some p => .ok p.2
  | none => .error (.keyError (toString track_id))

/-- The body of the row loop in `process_data` for one row: skip it when
`track_id == ball_id`, otherwise look up the category, compute the polygon and
format `str(idt) + " " + " ".join(map(str, coords)) + "\n"`. -/
def writeRow (ball_id : Option Int) (id_map : List (Int × Nat))
    (im_width im_height : Int) (r : Row) : Except PyError (List String) :=
  if ball_id = some r.track_id then .ok []
  else do
    let idt ← mapLookup id_map r.track_id
    let coords ← rectangle_to_polygon_normalized r.x0 r.y0 r.width r.height
      im_width im_height
    .ok [toString idt ++ " " ++ " ".intercalate (coords.map pyFloatStr) ++ "\n"]

/-- The full row loop over a frame's rows, emitting label lines in row order
and aborting at the first raising row, like the Python `for` loop. -/
def writeRows (ball_id : Option Int) (id_map : List (Int × Nat))
    (im_width im_height : Int) : List Row → Except PyError (List String)
  | [] => .ok []
  | r :: rest => do
      let ls ← writeRow ball_id id_map im_width im_height r
      let more ← writeRows ball_id id_map im_width im_height rest
      .ok (ls ++ more)

/-- Processing of one frame inside `process_data`: group lookup (which raises
before the label file is even opened), then the row loop; the result is the
full content of the frame's label file. -/
def process_frame (ball_id : Option Int) (id_map : List (Int × Nat))
    (im_width im_height : Int) (table : List Row) (frame_id : Int) :
    Except PyError String := do
  let rows ← getGroup table frame_id
  let lines ← writeRows ball_id id_map im_width im_height rows
  .ok (String.join lines)

/-- The spec's example role registry (`{1: "goalkeeper;1", 2: "player;1",
3: "player;2", 4: "ball;1"}`) written as a gameinfo file. -/
def exampleGameinfo : Ini :=
  ⟨[("Sequence",
     [("num_tracklets", "4"), ("trackletID_1", "goalkeeper;1"),
      ("trackletID_2", "player;1"), ("trackletID_3", "player;2"),
      ("trackletID_4", "ball;1")])]⟩

/-- A gameinfo file in which two tracklets declare the role `"ball;1"`. -/
def twoBallGameinfo : Ini :=
  ⟨[("Sequence",
     [("num_tracklets", "3"), ("trackletID_1", "player;1"),
      ("trackletID_2", "ball;1"), ("trackletID_3", "ball;1")])]⟩

deriving instance DecidableEq for Except

/-- `pyDiv` agrees with exact rational division on a nonzero divisor. -/
theorem pyDiv_eq_div (a b : Int) (hb : b ≠ 0) :
    pyDiv a b = .ok ((a : Rat) / (b : Rat)) := by
  unfold pyDiv
  rcases lt_trichotomy b 0 with h | h | h
  · rw [if_neg hb, if_neg (by omega)]
    have hna : (b.natAbs : Int) = -b := by omega
    rw [Rat.mkRat_eq_divInt, hna, Rat.divInt_eq_div]
    push_cast
    rw [neg_div_neg_eq]
  · exact absurd h hb
  · rw [if_neg hb, if_pos h]
    have hna : (b.natAbs : Int) = b := by omega
    rw [Rat.mkRat_eq_divInt, hna, Rat.divInt_eq_div]

/-- Closed form of the geometry transform on nonzero image dimensions. -/
theorem rectangle_ok (x0 y0 w h W H : Int) (hW : W ≠ 0) (hH : H ≠ 0) :
    rectangle_to_polygon_normalized x0 y0 w h W H =
      .ok [(x0 : Rat) / W, (y0 : Rat) / H, ((x0 : Rat) + w) / W, (y0 : Rat) / H,
           ((x0 : Rat) + w) / W, ((y0 : Rat) + h) / H, (x0 : Rat) / W,
           ((y0 : Rat) + h) / H] := by
  unfold rectangle_to_polygon_normalized
  dsimp only
  simp only [pyDiv_eq_div _ _ hW, pyDiv_eq_div _ _ hH, bind, Except.bind]
  push_cast
  ring_nf

/-- C2: for nonzero image dimensions, `rectangle_to_polygon_normalized`
returns the four corners `(x0,y0), (x0+w,y0), (x0+w,y0+h), (x0,y0+h)` in
clockwise-from-top-left order with x-coordinates divided by `img_width` and
y-coordinates by `img_height`; in particular the rectangle
`x0=10, y0=20, width=100, height=50` in a `200×100` image yields
`[0.05, 0.2, 0.55, 0.2, 0.55, 0.7, 0.05, 0.7]`. -/
theorem C2_rectangle_corners :
    (∀ x0 y0 w h W H : Int, W ≠ 0 → H ≠ 0 →
      rectangle_to_polygon_normalized x0 y0 w h W H =
        .ok [(x0 : Rat) / W, (y0 : Rat) / H, ((x0 : Rat) + w) / W, (y0 : Rat) / H,
             ((x0 : Rat) + w) / W, ((y0 : Rat) + h) / H, (x0 : Rat) / W,
             ((y0 : Rat) + h) / H]) ∧
    rectangle_to_polygon_normalized 10 20 100 50 200 100 =
      .ok [0.05, 0.2, 0.55, 0.2, 0.55, 0.7, 0.05, 0.7] := by
  constructor
  · exact rectangle_ok
  · rw [rectangle_ok 10 20 100 50 200 100 (by norm_num) (by norm_num)]
    norm_num

/-- Witness for C2 at the spec's example input. -/
theorem C2_witness :
    (200 : Int) ≠ 0 ∧ (100 : Int) ≠ 0 ∧
    rectangle_to_polygon_normalized 10 20 100 50 200 100 =
      .ok [((10 : Int) : Rat) / 200, ((20 : Int) : Rat) / 100,
           (((10 : Int) : Rat) + 100) / 200, ((20 : Int) : Rat) / 100,
           (((10 : Int) : Rat) + 100) / 200, (((20 : Int) : Rat) + 50) / 100,
           ((10 : Int) : Rat) / 200, (((20 : Int) : Rat) + 50) / 100] := by
  refine ⟨by norm_num, by norm_num, ?_⟩
  have := C2_rectangle_corners.1 10 20 100 50 200 100 (by norm_num) (by norm_num)
  rw [this]
  norm_num

/-- C5: the ground-truth row `(frame=5, track=2, x0=0, y0=0, width=10,
height=10, flag=1)`, with track 2 mapped to category 2 and a `100×100`
image, yields exactly the newline-terminated label line
`"2 0.0 0.0 0.1 0.0 0.1 0.1 0.0 0.1"`. -/
theorem C5_label_line :
    process_frame none [(2, 2)] 100 100
      [⟨5, 2, 0, 0, 10, 10, 1⟩] 5 =
      .ok "2 0.0 0.0 0.1 0.0 0.1 0.1 0.0 0.1\n" := by
  decide

/-- C6: for positive image dimensions the transform returns exactly 8 values,
and multiplying the x-coordinates back by `img_width` and the y-coordinates by
`img_height` recovers four corners of an axis-aligned rectangle with the given
width and height. -/
theorem C6_roundtrip (x0 y0 w h W H : Int) (hW : 0 < W) (hH : 0 < H) :
    ∃ l : List Rat, rectangle_to_polygon_normalized x0 y0 w h W H = .ok l ∧
      l.length = 8 ∧
      ∃ xa ya xb yb xc yc xd yd : Rat, l = [xa, ya, xb, yb, xc, yc, xd, yd] ∧
        xa * W = x0 ∧ ya * H = y0 ∧
        xb * W = x0 + w ∧ yb * H = y0 ∧
        xc * W = x0 + w ∧ yc * H = y0 + h ∧
        xd * W = x0 ∧ yd * H = y0 + h ∧
        xb * W - xa * W = w ∧ yc * H - yb * H = h := by
  have hW' : (W : Rat) ≠ 0 := Int.cast_ne_zero.mpr (by omega)
  have hH' : (H : Rat) ≠ 0 := Int.cast_ne_zero.mpr (by omega)
  refine ⟨_, rectangle_ok x0 y0 w h W H (by omega) (by omega), rfl,
    _, _, _, _, _, _, _, _, rfl, ?_, ?_, ?_, ?_, ?_, ?_, ?_, ?_, ?_, ?_⟩
  all_goals simp only [div_mul_cancel₀ _ hW', div_mul_cancel₀ _ hH']
  all_goals ring

/-- Witness for C6 at a concrete positive-dimension input. -/
theorem C6_witness :
    (0 : Int) < 100 ∧
    (∃ l : List Rat,
      rectangle_to_polygon_normalized 0 0 10 10 100 100 = .ok l ∧
      l.length = 8 ∧
      ∃ xa ya xb yb xc yc xd yd : Rat, l = [xa, ya, xb, yb, xc, yc, xd, yd] ∧
        xa * ((100 : Int) : Rat) = ((0 : Int) : Rat) ∧
        ya * ((100 : Int) : Rat) = ((0 : Int) : Rat) ∧
        xb * ((100 : Int) : Rat) = ((0 : Int) : Rat) + ((10 : Int) : Rat) ∧
        yb * ((100 : Int) : Rat) = ((0 : Int) : Rat) ∧
        xc * ((100 : Int) : Rat) = ((0 : Int) : Rat) + ((10 : Int) : Rat) ∧
        yc * ((100 : Int) : Rat) = ((0 : Int) : Rat) + ((10 : Int) : Rat) ∧
        xd * ((100 : Int) : Rat) = ((0 : Int) : Rat) ∧
        yd * ((100 : Int) : Rat) = ((0 : Int) : Rat) + ((10 : Int) : Rat) ∧
        xb * ((100 : Int) : Rat) - xa * ((100 : Int) : Rat) = ((10 : Int) : Rat) ∧
        yc * ((100 : Int) : Rat) - yb * ((100 : Int) : Rat) = ((10 : Int) : Rat)) :=
  ⟨by norm_num, C6_roundtrip 0 0 10 10 100 100 (by norm_num) (by norm_num)⟩

/-- C7 (as stated) is false: on a zero image width the transform raises the
raw `ZeroDivisionError`, not a distinct `InvalidDimension` error. -/
theorem C7_counterexample :
    rectangle_to_polygon_normalized 0 0 1 1 0 1 ≠ .error PyError.invalidDimension ∧
    rectangle_to_polygon_normalized 0 0 1 1 0 1 = .error PyError.zeroDivisionError := by
  decide

/-- C7 amended: with `img_width = 0` or `img_height = 0` the transform always
fails, but with the propagated raw `ZeroDivisionError` of the first division,
never with a distinct `InvalidDimension` error and never returning a value. -/
theorem C7_zero_dim_raw_error (x0 y0 w h W H : Int) (hWH : W = 0 ∨ H = 0) :
    rectangle_to_polygon_normalized x0 y0 w h W H =
      .error PyError.zeroDivisionError := by
  unfold rectangle_to_polygon_normalized pyDiv
  dsimp only
  rcases hWH with hW | hH
  · subst hW
    simp [bind, Except.bind]
  · subst hH
    by_cases hW : W = 0
    · subst hW
      simp [bind, Except.bind]
    · by_cases hW2 : 0 < W <;> simp [hW, hW2, bind, Except.bind]

/-- Witness for C7's amended statement at a zero image width. -/
theorem C7_witness :
    ((0 : Int) = 0 ∨ (1 : Int) = 0) ∧
    rectangle_to_polygon_normalized 3 4 5 6 0 1 =
      .error PyError.zeroDivisionError :=
  ⟨Or.inl rfl, C7_zero_dim_raw_error 3 4 5 6 0 1 (Or.inl rfl)⟩

/-- Rows skipped by the ball filter contribute nothing: the row loop produces
the same result as the loop over the rows whose `track_id` differs from the
ball id. -/
theorem writeRows_filter_ball (b : Int) (m : List (Int × Nat)) (W H : Int)
    (rows : List Row) :
    writeRows (some b) m W H rows =
      writeRows (some b) m W H (rows.filter (fun r => !(r.track_id == b))) := by
  induction rows with
  | nil => rfl
  | cons r rest ih =>
      rw [List.filter_cons]
      by_cases hb : r.track_id = b
      · have h1 : writeRow (some b) m W H r = .ok [] := by
          simp [writeRow, hb]
        have h2 : (!(r.track_id == b)) = false := by simp [hb]
        rw [h2, if_neg (by simp), ← ih]
        cases hrest : writeRows (some b) m W H rest <;>
          simp [writeRows, h1, hrest, bind, Except.bind]
      · have h2 : (!(r.track_id == b)) = true := by simp [hb]
        rw [h2, if_pos rfl]
        cases hr : writeRow (some b) m W H r <;>
          cases hrest : writeRows (some b) m W H rest <;>
            simp [writeRows, hr, hrest, bind, Except.bind, ← ih]

/-- If any id in the iteration list has no `trackletID_i` option, the
tracklet loop raises a `KeyError`. -/
theorem buildTracklets_missing (sec : List (String × String)) (is : List Int)
    (i : Int) (hi : i ∈ is) (hmiss : sectGet? sec (s!"trackletID_{i}") = none) :
    ∃ k, buildTracklets sec is = .error (.keyError k) := by
  induction is with
  | nil => cases hi
  | cons j rest ih =>
      by_cases hj : sectGet? sec (s!"trackletID_{j}") = none
      · exact ⟨_, by rw [buildTracklets, hj]⟩
      · rcases Option.ne_none_iff_exists'.mp hj with ⟨v, hv⟩
        rcases List.mem_cons.mp hi with rfl | hi'
        · exact absurd hmiss hj
        · rcases ih hi' with ⟨k, hk⟩
          refine ⟨k, ?_⟩
          rw [buildTracklets, hv]
          simp [hk, bind, Except.bind]

/-- The role classifier only ever returns the codes 0, 1, 2, 3. -/
theorem classifyRole_cases (v : String) :
    classifyRole v = 0 ∨ classifyRole v = 1 ∨ classifyRole v = 2 ∨
      classifyRole v = 3 := by
  unfold classifyRole
  split_ifs <;> simp

/-- On success the tracklet loop keys both outputs by exactly the iterated
id list, in order. -/
theorem buildTracklets_keys (sec : List (String × String)) (is : List Int) :
    ∀ (tr : List (Int × String)) (m : List (Int × Nat)),
      buildTracklets sec is = .ok (tr, m) →
      tr.map Prod.fst = is ∧ m.map Prod.fst = is := by
  induction is with
  | nil =>
      intro tr m h
      simp [buildTracklets] at h
      simp [h.1, h.2]
  | cons j rest ih =>
      intro tr m h
      rw [buildTracklets] at h
      cases hj : sectGet? sec (s!"trackletID_{j}") with
      | none => rw [hj] at h; cases h
      | some v =>
          rw [hj] at h
          cases hrest : buildTracklets sec rest with
          | error e => rw [hrest] at h; simp [bind, Except.bind] at h
          | ok p =>
              obtain ⟨ts, ms⟩ := p
              rw [hrest] at h
              simp [bind, Except.bind] at h
              obtain ⟨k1, k2⟩ := ih ts ms hrest
              simp [← h.1, ← h.2, k1, k2]

/-- Each registry entry `(i, v)` has `(i, classifyRole v)` in the category
map. -/
theorem buildTracklets_mem (sec : List (String × String)) (is : List Int) :
    ∀ (tr : List (Int × String)) (m : List (Int × Nat)),
      buildTracklets sec is = .ok (tr, m) →
      ∀ (i : Int) (v : String), (i, v) ∈ tr → (i, classifyRole v) ∈ m := by
  induction is with
  | nil =>
      intro tr m h
      simp [buildTracklets] at h
      simp [h.1]
  | cons j rest ih =>
      intro tr m h i v hmem
      rw [buildTracklets] at h
      cases hj : sectGet? sec (s!"trackletID_{j}") with
      | none => rw [hj] at h; cases h
      | some w =>
          rw [hj] at h
          cases hrest : buildTracklets sec rest with
          | error e => rw [hrest] at h; simp [bind, Except.bind] at h
          | ok p =>
              obtain ⟨ts, ms⟩ := p
              rw [hrest] at h
              simp [bind, Except.bind] at h
              rw [← h.1] at hmem
              rw [← h.2]
              rcases List.mem_cons.mp hmem with heq | hmem'
              · rw [Prod.mk.injEq] at heq
                rw [List.mem_cons]
                exact Or.inl (by rw [heq.1, heq.2])
              · exact List.mem_cons.mpr (Or.inr (ih ts ms hrest i v hmem'))

/-- Every category-map value produced by the tracklet loop is the classifier
output for some role string. -/
theorem buildTracklets_codes (sec : List (String × String)) (is : List Int) :
    ∀ (tr : List (Int × String)) (m : List (Int × Nat)),
      buildTracklets sec is = .ok (tr, m) →
      ∀ p ∈ m, ∃ v : String, p.2 = classifyRole v := by
  induction is with
  | nil =>
      intro tr m h
      simp [buildTracklets] at h
      simp [h.2]
  | cons j rest ih =>
      intro tr m h p hp
      rw [buildTracklets] at h
      cases hj : sectGet? sec (s!"trackletID_{j}") with
      | none => rw [hj] at h; cases h
      | some w =>
          rw [hj] at h
          cases hrest : buildTracklets sec rest with
          | error e => rw [hrest] at h; simp [bind, Except.bind] at h
          | ok q =>
              obtain ⟨ts, ms⟩ := q
              rw [hrest] at h
              simp [bind, Except.bind] at h
              rw [← h.2] at hp
              rcases List.mem_cons.mp hp with heq | hp'
              · exact ⟨w, by rw [heq]⟩
              · exact ih ts ms hrest p hp'

/-- The iterated tracklet ids are strictly increasing. -/
theorem trackletIds_pairwise (n : Int) :
    (trackletIds n).Pairwise (· < ·) := by
  unfold trackletIds
  rw [List.pairwise_map]
  exact (List.pairwise_lt_range' 1 n.toNat).imp (fun h => Int.ofNat_lt.mpr h)

/-- On a list with strictly increasing keys, `find?` returns the matching
entry of least key. -/
theorem find?_min_key {α : Type} (pred : Int × α → Bool) (l : List (Int × α)) :
    ∀ q : Int × α,
      l.Pairwise (fun a b => a.1 < b.1) → l.find? pred = some q →
      ∀ r ∈ l, pred r = true → q.1 ≤ r.1 := by
  induction l with
  | nil => intro q _ h; simp at h
  | cons x xs ih =>
      intro q hpair hfind r hr hpred
      rcases List.pairwise_cons.mp hpair with ⟨hlt, hpair'⟩
      by_cases hpx : pred x = true
      · have hqx : q = x := by
          rw [List.find?_cons, hpx] at hfind
          exact (Option.some.injEq _ _ ▸ hfind).symm
        subst hqx
        rcases List.mem_cons.mp hr with rfl | hr'
        · exact le_refl _
        · exact le_of_lt (hlt r hr')
      · have hfind' : xs.find? pred = some q := by
          rw [List.find?_cons] at hfind
          simpa [hpx] using hfind
        rcases List.mem_cons.mp hr with rfl | hr'
        · exact absurd hpred hpx
        · exact ih q hpair' hfind' r hr' hpred

/-- Inversion for a successful `parse_gameinfo`: the `[Sequence]` section
exists and the result comes from the tracklet loop over `1..n` for some `n`. -/
theorem parse_gameinfo_ok (c : Ini) (tr : List (Int × String))
    (m : List (Int × Nat)) (h : parse_gameinfo c = .ok (tr, m)) :
    ∃ (sec : List (String × String)) (n : Int),
      c.getSection? "Sequence" = some sec ∧
      buildTracklets sec (trackletIds n) = .ok (tr, m) := by
  unfold parse_gameinfo at h
  cases hsec : c.getSection? "Sequence" with
  | none => rw [hsec] at h; simp [bind, Except.bind] at h
  | some sec =>
      rw [hsec] at h
      simp only [bind, Except.bind] at h
      cases hnt : sectGet? sec "num_tracklets" with
      | none => rw [hnt] at h; simp [bind, Except.bind] at h
      | some v =>
          rw [hnt] at h
          simp only [bind, Except.bind] at h
          cases hint : pyInt? v with
          | none => rw [hint] at h; simp [bind, Except.bind] at h
          | some n =>
              rw [hint] at h
              simp [bind, Except.bind] at h
              exact ⟨sec, n, rfl, h⟩

/-- A resolved ball id comes from a tracklet whose role string is exactly
`"ball;1"`. -/
theorem resolveBallId_mem (tracklets : List (Int × String)) (b : Int)
    (h : resolveBallId tracklets = some b) : (b, "ball;1") ∈ tracklets := by
  unfold resolveBallId at h
  cases hf : tracklets.find? (fun p => p.2 == "ball;1") with
  | none => rw [hf] at h; simp at h
  | some p =>
      rw [hf] at h
      simp at h
      have hmem := List.mem_of_find?_eq_some hf
      have hp := List.find?_some hf
      simp at hp
      have hpb : p = (b, "ball;1") := by
        cases p with
        | mk a s => simp_all
      rwa [hpb] at hmem

/-- C1 (as stated) is false: for a frame with zero rows in the ground-truth
table the group lookup raises `KeyError` — processing crashes and the label
file is never produced, not produced empty. -/
theorem C1_counterexample :
    process_frame none [(2, 2)] 100 100 [⟨1, 2, 0, 0, 10, 10, 1⟩] 5 =
      .error (.keyError "5") ∧
    process_frame none [(2, 2)] 100 100 [⟨1, 2, 0, 0, 10, 10, 1⟩] 5 ≠ .ok "" := by
  decide

/-- C1 amended: for every frame with zero rows in the ground-truth table,
`groupby(...).get_group` raises a `KeyError` before the label file is opened,
so processing that frame aborts with that error and its label file is left
missing rather than written empty. -/
theorem C1_empty_frame_keyerror (b : Option Int) (m : List (Int × Nat))
    (W H : Int) (table : List Row) (frame : Int)
    (hempty : table.filter (fun r => r.frame_id == frame) = []) :
    process_frame b m W H table frame = .error (.keyError (toString frame)) := by
  unfold process_frame getGroup
  simp [hempty, bind, Except.bind]

/-- Witness for C1's amended statement on a one-row table and an absent
frame id. -/
theorem C1_witness :
    ([⟨1, 2, 0, 0, 10, 10, 1⟩] : List Row).filter (fun r => r.frame_id == 7) = [] ∧
    process_frame none [(2, 2)] 100 100 [⟨1, 2, 0, 0, 10, 10, 1⟩] 7 =
      .error (.keyError "7") :=
  ⟨by decide, C1_empty_frame_keyerror none [(2, 2)] 100 100 _ 7 (by decide)⟩

/-- C3: the role classifier follows the first-match case-sensitive substring
priority `goalkeeper → 1, player → 2, referee → 3, otherwise → 0` and always
returns a code; consequently the spec's example registry yields the category
map `{1:1, 2:2, 3:2, 4:0}`. -/
theorem C3_role_classifier :
    (∀ v : String,
      (substrIn "goalkeeper" v = true → classifyRole v = 1) ∧
      (substrIn "goalkeeper" v = false → substrIn "player" v = true →
        classifyRole v = 2) ∧
      (substrIn "goalkeeper" v = false → substrIn "player" v = false →
        substrIn "referee" v = true → classifyRole v = 3) ∧
      (substrIn "goalkeeper" v = false → substrIn "player" v = false →
        substrIn "referee" v = false → classifyRole v = 0)) ∧
    parse_gameinfo exampleGameinfo =
      .ok ([(1, "goalkeeper;1"), (2, "player;1"), (3, "player;2"), (4, "ball;1")],
           [(1, 1), (2, 2), (3, 2), (4, 0)]) := by
  constructor
  · intro v
    refine ⟨fun h1 => ?_, fun h1 h2 => ?_, fun h1 h2 h3 => ?_, fun h1 h2 h3 => ?_⟩ <;>
      simp [classifyRole, h1]
    · simp [h2]
    · simp [h2, h3]
    · simp [h2, h3]
  · decide

/-- Witness for C3 at the role string `"goalkeeper;1"`. -/
theorem C3_witness : classifyRole "goalkeeper;1" = 1 :=
  (C3_role_classifier.1 "goalkeeper;1").1 (by decide)

/-- C4: the ball id is a tracklet whose role string equals `"ball;1"` exactly
(substring containment is not enough), rows carrying the resolved ball id
contribute no label line, and with no exact `"ball;1"` tracklet the ball
filter is a no-op (no row is skipped). -/
theorem C4_ball_exclusion :
    (∀ (tracklets : List (Int × String)) (b : Int),
      resolveBallId tracklets = some b → (b, "ball;1") ∈ tracklets) ∧
    resolveBallId [(1, "football;1")] = none ∧
    (∀ tracklets : List (Int × String),
      (∀ p ∈ tracklets, p.2 ≠ "ball;1") → resolveBallId tracklets = none) ∧
    (∀ (b : Int) (m : List (Int × Nat)) (W H : Int) (rows : List Row),
      writeRows (some b) m W H rows =
        writeRows (some b) m W H (rows.filter (fun r => !(r.track_id == b)))) ∧
    (∀ (m : List (Int × Nat)) (W H : Int) (r : Row),
      writeRow none m W H r ≠ .ok []) := by
  refine ⟨resolveBallId_mem, by decide, ?_, writeRows_filter_ball, ?_⟩
  · intro tracklets hall
    unfold resolveBallId
    rw [List.find?_eq_none.mpr ?_]
    · rfl
    · intro p hp
      simp [hall p hp]
  · intro m W H r
    unfold writeRow
    rw [if_neg (by simp)]
    cases hl : mapLookup m r.track_id with
    | error e => simp [bind, Except.bind, hl]
    | ok idt =>
        cases hrect : rectangle_to_polygon_normalized r.x0 r.y0 r.width r.height W H <;>
          simp [bind, Except.bind, hl, hrect]

/-- Witness for C4: the resolved ball tracklet of a concrete registry has the
exact role string `"ball;1"`. -/
theorem C4_witness :
    ((4 : Int), "ball;1") ∈ [((1 : Int), "player;1"), (4, "ball;1")] :=
  C4_ball_exclusion.1 [(1, "player;1"), (4, "ball;1")] 4 (by decide)

/-- C8 (as stated) is false: a zero or negative `num_tracklets` does not
fail — the loop over `range(1, num_tracklets + 1)` is empty and
`parse_gameinfo` succeeds with empty mappings. -/
theorem C8_counterexample :
    parse_gameinfo ⟨[("Sequence", [("num_tracklets", "0")])]⟩ = .ok ([], []) ∧
    parse_gameinfo ⟨[("Sequence", [("num_tracklets", "-3")])]⟩ = .ok ([], []) := by
  decide

/-- C8 amended: `parse_gameinfo` raises `KeyError` when the `[Sequence]`
section, the `num_tracklets` key, or any required `trackletID_i` key
(`1 ≤ i ≤ num_tracklets`) is missing, and `ValueError` when `num_tracklets`
is non-numeric; but a zero or negative `num_tracklets` is accepted and
returns empty mappings. -/
theorem C8_parse_gameinfo_errors :
    (∀ c : Ini, c.getSection? "Sequence" = none →
      parse_gameinfo c = .error (.keyError "Sequence")) ∧
    (∀ (c : Ini) (sec : List (String × String)),
      c.getSection? "Sequence" = some sec →
      sectGet? sec "num_tracklets" = none →
      parse_gameinfo c = .error (.keyError "num_tracklets")) ∧
    (∀ (c : Ini) (sec : List (String × String)) (v : String),
      c.getSection? "Sequence" = some sec →
      sectGet? sec "num_tracklets" = some v → pyInt? v = none →
      parse_gameinfo c = .error PyError.valueError) ∧
    (∀ (c : Ini) (sec : List (String × String)) (v : String) (n i : Int),
      c.getSection? "Sequence" = some sec →
      sectGet? sec "num_tracklets" = some v → pyInt? v = some n →
      i ∈ trackletIds n → sectGet? sec (s!"trackletID_{i}") = none →
      ∃ k, parse_gameinfo c = .error (.keyError k)) ∧
    (∀ (c : Ini) (sec : List (String × String)) (v : String) (n : Int),
      c.getSection? "Sequence" = some sec →
      sectGet? sec "num_tracklets" = some v → pyInt? v = some n → n ≤ 0 →
      parse_gameinfo c = .ok ([], [])) := by
  refine ⟨?_, ?_, ?_, ?_, ?_⟩
  · intro c h
    unfold parse_gameinfo
    simp [h, bind, Except.bind]
  · intro c sec h1 h2
    unfold parse_gameinfo
    simp [h1, h2, bind, Except.bind]
  · intro c sec v h1 h2 h3
    unfold parse_gameinfo
    simp [h1, h2, h3, bind, Except.bind]
  · intro c sec v n i h1 h2 h3 hi hmiss
    rcases buildTracklets_missing sec (trackletIds n) i hi hmiss with ⟨k, hk⟩
    refine ⟨k, ?_⟩
    unfold parse_gameinfo
    simp [h1, h2, h3, hk, bind, Except.bind]
  · intro c sec v n h1 h2 h3 hn
    have h0 : n.toNat = 0 := by omega
    unfold parse_gameinfo
    simp [h1, h2, h3, trackletIds, h0, buildTracklets, bind, Except.bind]

/-- Witness for C8's amended statement on a file with no `[Sequence]`
section. -/
theorem C8_witness :
    (⟨[]⟩ : Ini).getSection? "Sequence" = none ∧
    parse_gameinfo ⟨[]⟩ = .error (.keyError "Sequence") :=
  ⟨by decide, C8_parse_gameinfo_errors.1 ⟨[]⟩ (by decide)⟩

/-- C9: a non-ball row whose `track_id` is absent from the category map makes
the label writer fail with the propagated dictionary lookup failure
(`KeyError` on the track id) — it never silently substitutes a default
category code. -/
theorem C9_unknown_track (b : Option Int) (m : List (Int × Nat)) (W H : Int)
    (r : Row) (hball : b ≠ some r.track_id)
    (habsent : m.find? (fun p => p.1 == r.track_id) = none) :
    writeRow b m W H r = .error (.keyError (toString r.track_id)) := by
  unfold writeRow mapLookup
  rw [if_neg hball]
  simp [habsent, bind, Except.bind]

/-- Witness for C9 on an empty category map. -/
theorem C9_witness :
    (none ≠ some ((2 : Int))) ∧
    ([] : List (Int × Nat)).find? (fun p => p.1 == (2 : Int)) = none ∧
    writeRow none [] 100 100 ⟨5, 2, 0, 0, 10, 10, 1⟩ =
      .error (.keyError "2") :=
  ⟨by decide, by decide, C9_unknown_track none [] 100 100 ⟨5, 2, 0, 0, 10, 10, 1⟩
    (by decide) (by decide)⟩

/-- C10: a successful `parse_gameinfo` keys the registry and the category map
by the same contiguous ids `1..num_tracklets`, every category code is one of
0, 1, 2, 3, and a resolved ball id is the least tracklet id declaring exactly
`"ball;1"`, while every `"ball;1"` tracklet receives category code 0 and
non-ball tracklets stay eligible for output (never skipped by the ball
filter). -/
theorem C10_registry_invariants (c : Ini) (tr : List (Int × String))
    (m : List (Int × Nat)) (h : parse_gameinfo c = .ok (tr, m)) :
    tr.map Prod.fst = m.map Prod.fst ∧
    (∃ n : Nat, tr.map Prod.fst = (List.range' 1 n).map Int.ofNat) ∧
    (∀ p ∈ m, p.2 = 0 ∨ p.2 = 1 ∨ p.2 = 2 ∨ p.2 = 3) ∧
    (∀ b : Int, resolveBallId tr = some b →
      ((b, "ball;1") ∈ tr ∧
       (∀ p ∈ tr, p.2 = "ball;1" → b ≤ p.1) ∧
       (∀ p ∈ tr, p.2 = "ball;1" → (p.1, (0 : Nat)) ∈ m) ∧
       (∀ (W H : Int) (r : Row), r.track_id ≠ b →
         writeRow (some b) m W H r ≠ .ok []))) := by
  rcases parse_gameinfo_ok c tr m h with ⟨sec, n, hsec, hbuild⟩
  obtain ⟨hkeys1, hkeys2⟩ := buildTracklets_keys sec (trackletIds n) tr m hbuild
  have hpair : tr.Pairwise (fun a b => a.1 < b.1) := by
    have hp := trackletIds_pairwise n
    rw [← hkeys1] at hp
    exact List.pairwise_map.mp hp
  refine ⟨hkeys1.trans hkeys2.symm, ⟨n.toNat, by rw [hkeys1]; rfl⟩, ?_, ?_⟩
  · intro p hp
    rcases buildTracklets_codes sec (trackletIds n) tr m hbuild p hp with ⟨v, hv⟩
    rw [hv]
    exact classifyRole_cases v
  · intro b hb
    refine ⟨resolveBallId_mem tr b hb, ?_, ?_, ?_⟩
    · intro p hp hball
      unfold resolveBallId at hb
      cases hf : tr.find? (fun q => q.2 == "ball;1") with
      | none => rw [hf] at hb; simp at hb
      | some q =>
          rw [hf] at hb
          simp at hb
          have := find?_min_key (fun q => q.2 == "ball;1") tr q hpair hf p hp
            (by simp [hball])
          omega
    · intro p hp hball
      have := buildTracklets_mem sec (trackletIds n) tr m hbuild p.1 p.2
        (by rwa [Prod.mk.eta])
      rw [hball] at this
      simpa using this
    · intro W H r hr
      unfold writeRow
      rw [if_neg (by simp [Ne.symm hr])]
      cases hl : mapLookup m r.track_id with
      | error e => simp [bind, Except.bind, hl]
      | ok idt =>
          cases hrect : rectangle_to_polygon_normalized r.x0 r.y0 r.width
              r.height W H <;>
            simp [bind, Except.bind, hl, hrect]

/-- Witness for C10: on a registry with two `"ball;1"` tracklets the two
mappings share their key list. -/
theorem C10_witness :
    ([(1, "player;1"), (2, "ball;1"), (3, "ball;1")] : List (Int × String)).map
        Prod.fst =
      ([(1, 2), (2, 0), (3, 0)] : List (Int × Nat)).map Prod.fst :=
  (C10_registry_invariants twoBallGameinfo
    [(1, "player;1"), (2, "ball;1"), (3, "ball;1")]
    [(1, 2), (2, 0), (3, 0)] (by decide)).1
